import Mathlib

/-!
Shallow embedding of the Bunyan formatting layer
(`src/formatting_layer.rs` of `tracing-bunyan-formatter`), together with
theorems checking the natural-language specification against it.

JSON values are modelled by the inductive `Json`; emitted records are
modelled as the ordered key/value list that the serde map serializer
receives (the serialized JSON object), since every claim is about the
keys and values of that object.
-/

/-- A JSON value (`serde_json::Value`). -/
inductive Json where
  | null
  | bool (b : Bool)
  | num (n : Int)
  | str (s : String)
  | arr (xs : List Json)
  | obj (fs : List (String × Json))
deriving Repr

/-- Tracing severity levels (`tracing_core::metadata::Level`). -/
inductive Level where
  | trace
  | debug
  | info
  | warn
  | error
deriving Repr, DecidableEq

/-- `to_bunyan_level`: convert from log levels to Bunyan's levels. -/
def to_bunyan_level : Level → Nat
  | .error => 50
  | .warn => 40
  | .info => 30
  | .debug => 20
  | .trace => 10

/-- `BUNYAN_REQUIRED_FIELDS`: the keys of the 7 mandatory core fields of the
Bunyan format, with the literal key strings used on the wire
(`BUNYAN_VERSION = "v"`, `LEVEL`, `NAME`, `HOSTNAME`, `PID`, `TIME`,
`MESSAGE = "msg"`). -/
def BUNYAN_REQUIRED_FIELDS : List String :=
  ["v", "level", "name", "hostname", "pid", "time", "msg"]

/-- The configuration state of a `BunyanFormattingLayer` (minus the writer,
which is the out-of-scope sink collaborator). -/
structure Config where
  pid : Nat
  hostname : String
  bunyan_version : Nat
  name : String
  default_fields : List (String × Json)
  skip_fields : List String
  serialize_span_fields : Bool
  serialize_span_id : Bool
  serialize_span_type : Bool

/-- `BunyanFormattingLayer::with_default_fields`: construction. `pid` and
`hostname` are resolved by out-of-scope process-identity lookups and enter as
parameters. -/
def with_default_fields (name : String) (pid : Nat) (hostname : String)
    (default_fields : List (String × Json)) : Config :=
  { pid := pid
    hostname := hostname
    bunyan_version := 0
    name := name
    default_fields := default_fields
    skip_fields := []
    serialize_span_fields := true
    serialize_span_id := false
    serialize_span_type := false }

/-- `SkipFieldError`: returned by `skip_fields` when trying to skip a core
field. -/
structure SkipFieldError where
  field : String
deriving Repr, DecidableEq

/-- The `Display` implementation of `SkipFieldError`. -/
def SkipFieldError.display (e : SkipFieldError) : String :=
  e.field ++ " is a core field in the bunyan log format, it can\x27t be skipped"

/-- One `HashSet::insert`: a no-op when the element is already present. -/
def insertSkip (s : List String) (f : String) : List String :=
  if f ∈ s then s else s ++ [f]

/-- The loop body of `BunyanFormattingLayer::skip_fields`, iterating over the
supplied names with the current skip set. -/
def skip_fields_loop (s : List String) : List String → Except SkipFieldError (List String)
  | [] => .ok s
  | f :: rest =>
      if f ∈ BUNYAN_REQUIRED_FIELDS then .error ⟨f⟩
      else skip_fields_loop (insertSkip s f) rest

/-- `BunyanFormattingLayer::skip_fields`: add fields to skip; errors on a
required core Bunyan field. -/
def skip_fields (c : Config) (fields : List String) : Except SkipFieldError Config :=
  match skip_fields_loop c.skip_fields fields with
  | .ok s => .ok { c with skip_fields := s }
  | .error e => .error e

/-- Span metadata and captured-field storage as seen by the layer:
`ident` is the span's `u64` id, `ext` is the `JsonStorage` extension
attached by the upstream storage layer (`none` when that layer is absent). -/
structure SpanData where
  ident : Nat
  name : String
  level : Level
  target : String
  line : Option Nat
  file : Option String
  ext : Option (List (String × Json))

/-- A `SpanRef`: a span together with its ancestor chain (innermost parent
first), as provided by the subscriber registry. -/
structure SpanRef where
  data : SpanData
  ancestors : List SpanData

/-- `SpanRef::parent`. -/
def SpanRef.parent (s : SpanRef) : Option SpanRef :=
  match s.ancestors with
  | [] => none
  | p :: rest => some ⟨p, rest⟩

/-- The type of record we are dealing with (`Type` in the source): entering a
span, exiting a span, an event. -/
inductive RecType where
  | EnterSpan
  | ExitSpan
  | Event
deriving Repr, DecidableEq

/-- The `Display` implementation of `Type`. -/
def RecType.display : RecType → String
  | .EnterSpan => "START"
  | .ExitSpan => "END"
  | .Event => "EVENT"

/-- `format_span_id`: ensure consistent formatting of the span ids. -/
def format_span_id (span : SpanRef) : String :=
  "span-" ++ toString span.data.ident

/-- `format_span_context`: ensure consistent formatting of the span context,
e.g. `[AN_INTERESTING_SPAN - START]`. -/
def format_span_context (span : SpanRef) (ty : RecType) : String :=
  "[" ++ span.data.name.toUpper ++ " - " ++ ty.display ++ "]"

/-- Association-list lookup on captured values (`HashMap::get`). -/
def getField : List (String × Json) → String → Option Json
  | [], _ => none
  | (k, v) :: r, key => if k = key then some v else getField r key

/-- `format_event_message`: the event's own `message` field if present and a
string, else the event's target; prefixed with the span context when
`plain_message` is false and the event is inside a span. -/
def format_event_message (current_span : Option SpanRef) (eventTarget : String)
    (event_values : List (String × Json)) (plain_message : Bool) : String :=
  let message :=
    match getField event_values "message" with
    | some (.str s) => s
    | _ => eventTarget
  if !plain_message then
    match current_span with
    | some span => format_span_context span .Event ++ " " ++ message
    | none => message
  else message

/-- Serialization of an `Option<u32>` source line (serde: `null` or number). -/
def jsonOfOptNat : Option Nat → Json
  | none => .null
  | some n => .num n

/-- Serialization of an `Option<&str>` source file (serde: `null` or string). -/
def jsonOfOptStr : Option String → Json
  | none => .null
  | some s => .str s

/-- `BunyanFormattingLayer::serialize_field`: emit the entry unless the key is
in the skip set. -/
def serialize_field (c : Config) (key : String) (value : Json) :
    List (String × Json) :=
  if key ∈ c.skip_fields then [] else [(key, value)]

/-- `BunyanFormattingLayer::serialize_bunyan_core_fields`. `now` is the result
of the out-of-scope clock collaborator formatting `now_utc` as RFC-3339
(`none` when that formatting failed, in which case the `time` entry is
skipped, mirroring the source's `if let Ok(time)` guard). -/
def serialize_bunyan_core_fields (c : Config) (now : Option String)
    (message : String) (level : Level) : List (String × Json) :=
  [("v", .num c.bunyan_version),
   ("name", .str c.name),
   ("msg", .str message),
   ("level", .num (to_bunyan_level level)),
   ("hostname", .str c.hostname),
   ("pid", .num c.pid)] ++
  (match now with
   | some t => [("time", Json.str t)]
   | none => [])

/-- The visitor used by `serialize_span`: the span's `JsonStorage` extension
when present, else a fresh visitor recording the given attribute values. -/
def span_visitor (span : SpanRef) (attrs : Option (List (String × Json))) :
    Option (List (String × Json)) :=
  match span.data.ext with
  | some vs => some vs
  | none => attrs

/-- `BunyanFormattingLayer::serialize_span`: the ordered field list of the
JSON object serialized for a span record. `attrs` carries the attribute
values recorded into a fresh visitor when the span's `JsonStorage` extension
is absent (the `on_new_span` path). -/
def serialize_span (c : Config) (now : Option String) (span : SpanRef)
    (ty : RecType) (attrs : Option (List (String × Json))) :
    List (String × Json) :=
  let message :=
    if c.serialize_span_type then none
    else some (format_span_context span ty)
  serialize_bunyan_core_fields c now (message.getD span.data.name) span.data.level ++
  serialize_field c "target" (.str span.data.target) ++
  serialize_field c "line" (jsonOfOptNat span.data.line) ++
  serialize_field c "file" (jsonOfOptStr span.data.file) ++
  (if c.serialize_span_type then
    serialize_field c "span_type" (.str ty.display)
  else []) ++
  (if c.serialize_span_id then
    (match span.parent with
     | some parent_span =>
         serialize_field c "parent_span_id" (.str (format_span_id parent_span))
     | none => []) ++
    serialize_field c "span_id" (.str (format_span_id span))
  else []) ++
  (c.default_fields.filter
      (fun kv => kv.1 ∉ BUNYAN_REQUIRED_FIELDS)).flatMap
    (fun kv => serialize_field c kv.1 kv.2) ++
  (match span_visitor span attrs with
   | some vs =>
       (vs.filter (fun kv => kv.1 ∉ BUNYAN_REQUIRED_FIELDS)).flatMap
         (fun kv => serialize_field c kv.1 kv.2)
   | none => [])

/-- The `format` closure of `Layer::on_event`: the ordered field list of the
JSON object serialized for an event record. -/
def on_event_record (c : Config) (now : Option String)
    (current_span : Option SpanRef) (eventLevel : Level) (eventTarget : String)
    (eventLine : Option Nat) (eventFile : Option String)
    (event_values : List (String × Json)) : List (String × Json) :=
  let message :=
    format_event_message current_span eventTarget event_values
      c.serialize_span_type
  serialize_bunyan_core_fields c now message eventLevel ++
  serialize_field c "target" (.str eventTarget) ++
  serialize_field c "line" (jsonOfOptNat eventLine) ++
  serialize_field c "file" (jsonOfOptStr eventFile) ++
  (c.default_fields.filter
      (fun kv => kv.1 ≠ "message" ∧ kv.1 ∉ BUNYAN_REQUIRED_FIELDS)).flatMap
    (fun kv => serialize_field c kv.1 kv.2) ++
  (if c.serialize_span_id then
    match current_span with
    | some span =>
        (match span.parent with
         | some parent_span =>
             serialize_field c "parent_span_id" (.str (format_span_id parent_span))
         | none => []) ++
        serialize_field c "span_id" (.str (format_span_id span))
    | none => []
  else []) ++
  (event_values.filter
      (fun kv => kv.1 ≠ "message" ∧ kv.1 ∉ BUNYAN_REQUIRED_FIELDS)).flatMap
    (fun kv => serialize_field c kv.1 kv.2) ++
  (if c.serialize_span_fields then
    match current_span with
    | some span =>
        match span.data.ext with
        | some vs =>
            (vs.filter (fun kv => kv.1 ∉ BUNYAN_REQUIRED_FIELDS)).flatMap
              (fun kv => serialize_field c kv.1 kv.2)
        | none => []
    | none => []
  else [])

/-- The keys of a serialized record, in emission order. -/
def recordKeys (r : List (String × Json)) : List String :=
  r.map Prod.fst

/-- `Layer::on_new_span` record: serialize the span as `EnterSpan`, with the
attribute values just recorded available as the fallback visitor. -/
def on_new_span_record (c : Config) (now : Option String) (span : SpanRef)
    (attrs : List (String × Json)) : List (String × Json) :=
  serialize_span c now span .EnterSpan (some attrs)

/-- Modelled from the spec: the SpanTimer bookkeeping is implemented by the
storage layer (`storage_layer.rs`), which is not among the sources here.
Per the spec, the timer records the creation instant when the span is
created, and at closure the elapsed time — the integer milliseconds between
the paired span-enter timestamp and now — is appended to the span's
captured-field store after all other fields, so the exit record serializes
it last. `created_ms` and `now_ms` are instants in milliseconds. -/
def close_span (span : SpanRef) (created_ms now_ms : Nat) : SpanRef :=
  { span with data := { span.data with
      ext := some ((span.data.ext.getD []) ++
        [("elapsed_milliseconds", Json.num (now_ms - created_ms))]) } }

/-- `Layer::on_close` record: serialize the span as `ExitSpan`, with the
spec-modelled elapsed-time bookkeeping applied to the span's field store. -/
def on_close_record (c : Config) (now : Option String) (span : SpanRef)
    (created_ms now_ms : Nat) : List (String × Json) :=
  serialize_span c now (close_span span created_ms now_ms) .ExitSpan none

/-- Consume exactly `n` decimal digits. -/
def digitsN : Nat → List Char → Option (List Char)
  | 0, l => some l
  | n + 1, c :: l => if c.isDigit then digitsN n l else none
  | _ + 1, [] => none

/-- Consume one expected character. -/
def expectChar (c : Char) : List Char → Option (List Char)
  | d :: l => if d = c then some l else none
  | [] => none

/-- Consume an optional fractional-seconds part (a dot followed by at least
one digit). -/
def dropFrac : List Char → List Char
  | '.' :: c :: l =>
      if c.isDigit then (c :: l).dropWhile Char.isDigit else '.' :: c :: l
  | l => l

/-- A UTC offset per the spec: numeric offset `+00:00`, or `Z`. -/
def utcOffsetOk : List Char → Bool
  | ['Z'] => true
  | ['+', '0', '0', ':', '0', '0'] => true
  | _ => false

/-- Modelled from the spec: shape of an RFC-3339 timestamp in UTC
(`full-date "T" partial-time` with an optional fractional part, offset
`+00:00` or `Z`), standing in for the out-of-scope clock collaborator's
formatting guarantee. -/
def isRfc3339Utc (s : String) : Bool :=
  match (do
      let l ← digitsN 4 s.toList
      let l ← expectChar '-' l
      let l ← digitsN 2 l
      let l ← expectChar '-' l
      let l ← digitsN 2 l
      let l ← expectChar 'T' l
      let l ← digitsN 2 l
      let l ← expectChar ':' l
      let l ← digitsN 2 l
      let l ← expectChar ':' l
      let l ← digitsN 2 l
      pure (dropFrac l) : Option (List Char)) with
  | some l => utcOffsetOk l
  | none => false

/-- The externally observable effect of one lifecycle notification: the
buffers handed to the sink (one `write_all` call per element) and the error,
if any, allowed to propagate to the host framework. -/
structure HookEffect where
  emitted : List (List (String × Json))
  propagated : Option String

/-- `Layer::on_event` control flow: the `format()` closure can fail inside
serde (`serFailure`); on failure nothing is emitted; on success the record is
emitted with exactly one write whose own result (`writeFailure`) is discarded
by `let _ = self.emit(..)`. No error ever reaches the host framework. -/
def run_on_event (c : Config) (now : Option String)
    (current_span : Option SpanRef) (eventLevel : Level) (eventTarget : String)
    (eventLine : Option Nat) (eventFile : Option String)
    (event_values : List (String × Json))
    (serFailure : Option String) (_writeFailure : Option String) : HookEffect :=
  match serFailure with
  | some _ => { emitted := [], propagated := none }
  | none =>
      { emitted := [on_event_record c now current_span eventLevel eventTarget
          eventLine eventFile event_values]
        propagated := none }

/-- `Layer::on_new_span` control flow: `if let Ok(serialized) = ...` drops
the record on serialization failure; `let _ = self.emit(..)` discards the
write result. No error ever reaches the host framework. -/
def run_on_new_span (c : Config) (now : Option String) (span : SpanRef)
    (attrs : List (String × Json))
    (serFailure : Option String) (_writeFailure : Option String) : HookEffect :=
  match serFailure with
  | some _ => { emitted := [], propagated := none }
  | none => { emitted := [on_new_span_record c now span attrs], propagated := none }

/-- `Layer::on_close` control flow: `if let Ok(serialized) = ...` drops the
record on serialization failure; `let _ = self.emit(..)` discards the write
result. No error ever reaches the host framework. -/
def run_on_close (c : Config) (now : Option String) (span : SpanRef)
    (created_ms now_ms : Nat)
    (serFailure : Option String) (_writeFailure : Option String) : HookEffect :=
  match serFailure with
  | some _ => { emitted := [], propagated := none }
  | none =>
      { emitted := [on_close_record c now span created_ms now_ms]
        propagated := none }

/-! ### Helper lemmas about record field lists -/

theorem recordKeys_append (a b : List (String × Json)) :
    recordKeys (a ++ b) = recordKeys a ++ recordKeys b := by
  simp [recordKeys]

@[simp]
theorem recordKeys_nil : recordKeys ([] : List (String × Json)) = [] := rfl

@[simp]
theorem recordKeys_cons (k0 : String) (v0 : Json) (tl : List (String × Json)) :
    recordKeys ((k0, v0) :: tl) = k0 :: recordKeys tl := rfl

theorem getField_eq_none_iff {l : List (String × Json)} {k : String} :
    getField l k = none ↔ k ∉ recordKeys l := by
  induction l with
  | nil => simp [getField]
  | cons hd tl ih =>
    obtain ⟨k0, v0⟩ := hd
    by_cases hk : k0 = k
    · subst hk
      simp [getField]
    · have hk' : ¬(k = k0) := fun h => hk h.symm
      simp [getField, hk, hk', ih]

theorem getField_append_left {a b : List (String × Json)} {k : String}
    {v : Json} (h : getField a k = some v) :
    getField (a ++ b) k = some v := by
  induction a with
  | nil => simp [getField] at h
  | cons hd tl ih =>
    obtain ⟨k0, v0⟩ := hd
    by_cases hk : k0 = k
    · simp [getField, hk] at h ⊢
      exact h
    · simp [getField, hk] at h ⊢
      exact ih h

theorem getField_append_right {a b : List (String × Json)} {k : String}
    (h : k ∉ recordKeys a) : getField (a ++ b) k = getField b k := by
  induction a with
  | nil => simp
  | cons hd tl ih =>
    obtain ⟨k0, v0⟩ := hd
    have h1 : ¬(k = k0) ∧ k ∉ recordKeys tl := by simpa using h
    have hk : ¬(k0 = k) := fun hh => h1.1 hh.symm
    simpa [getField, hk] using ih h1.2

theorem mem_recordKeys_serialize_field {c : Config} {key : String} {v : Json}
    {k : String} :
    k ∈ recordKeys (serialize_field c key v) ↔ k = key ∧ key ∉ c.skip_fields := by
  by_cases h : key ∈ c.skip_fields <;> simp [serialize_field, recordKeys, h]

theorem mem_flatMap_serialize_field {c : Config} {l : List (String × Json)}
    {k : String} {v : Json} :
    (k, v) ∈ l.flatMap (fun kv => serialize_field c kv.1 kv.2) ↔
      (k, v) ∈ l ∧ k ∉ c.skip_fields := by
  constructor
  · intro h
    obtain ⟨⟨k0, v0⟩, hmem, hin⟩ := List.mem_flatMap.mp h
    by_cases hs : k0 ∈ c.skip_fields
    · simp [serialize_field, hs] at hin
    · simp [serialize_field, hs] at hin
      obtain ⟨rfl, rfl⟩ := hin
      exact ⟨hmem, hs⟩
  · rintro ⟨hmem, hs⟩
    exact List.mem_flatMap.mpr ⟨(k, v), hmem, by simp [serialize_field, hs]⟩

theorem mem_keys_flatMap_serialize_field {c : Config}
    {l : List (String × Json)} {k : String} :
    k ∈ recordKeys (l.flatMap fun kv => serialize_field c kv.1 kv.2) ↔
      k ∈ recordKeys l ∧ k ∉ c.skip_fields := by
  constructor
  · intro h
    obtain ⟨⟨k0, v0⟩, hmem, hk⟩ := List.mem_map.mp h
    subst hk
    have := mem_flatMap_serialize_field.mp hmem
    exact ⟨List.mem_map.mpr ⟨(k0, v0), this.1, rfl⟩, this.2⟩
  · rintro ⟨hmem, hs⟩
    obtain ⟨⟨k0, v0⟩, hmem0, hk⟩ := List.mem_map.mp hmem
    subst hk
    exact List.mem_map.mpr
      ⟨(k0, v0), mem_flatMap_serialize_field.mpr ⟨hmem0, hs⟩, rfl⟩

/-- The keys of the core-field block, in emission order (`time` is absent
when the clock formatting failed). -/
def coreKeys : Option String → List String
  | some _ => ["v", "name", "msg", "level", "hostname", "pid", "time"]
  | none => ["v", "name", "msg", "level", "hostname", "pid"]

theorem recordKeys_core (c : Config) (now : Option String) (m : String)
    (lvl : Level) :
    recordKeys (serialize_bunyan_core_fields c now m lvl) = coreKeys now := by
  cases now <;> rfl

theorem coreKeys_subset_required {now : Option String} {k : String}
    (h : k ∈ coreKeys now) : k ∈ BUNYAN_REQUIRED_FIELDS := by
  cases now <;> revert h <;> simp [coreKeys, BUNYAN_REQUIRED_FIELDS] <;> tauto

theorem mem_keys_default_block {c : Config} {l : List (String × Json)}
    {k : String} :
    k ∈ recordKeys ((l.filter
        (fun kv => kv.1 ∉ BUNYAN_REQUIRED_FIELDS)).flatMap
        fun kv => serialize_field c kv.1 kv.2) ↔
      k ∈ recordKeys l ∧ k ∉ BUNYAN_REQUIRED_FIELDS ∧ k ∉ c.skip_fields := by
  rw [mem_keys_flatMap_serialize_field]
  constructor
  · rintro ⟨hm, hs⟩
    obtain ⟨⟨k0, v0⟩, hm0, rfl⟩ := List.mem_map.mp hm
    have hf := List.mem_filter.mp hm0
    exact ⟨List.mem_map.mpr ⟨_, hf.1, rfl⟩, by simpa using hf.2, hs⟩
  · rintro ⟨hm, hr, hs⟩
    obtain ⟨⟨k0, v0⟩, hm0, rfl⟩ := List.mem_map.mp hm
    exact ⟨List.mem_map.mpr
      ⟨_, List.mem_filter.mpr ⟨hm0, by simpa using hr⟩, rfl⟩, hs⟩

theorem mem_keys_event_block {c : Config} {l : List (String × Json)}
    {k : String} :
    k ∈ recordKeys ((l.filter
        (fun kv => kv.1 ≠ "message" ∧ kv.1 ∉ BUNYAN_REQUIRED_FIELDS)).flatMap
        fun kv => serialize_field c kv.1 kv.2) ↔
      k ∈ recordKeys l ∧ k ≠ "message" ∧ k ∉ BUNYAN_REQUIRED_FIELDS ∧
        k ∉ c.skip_fields := by
  rw [mem_keys_flatMap_serialize_field]
  constructor
  · rintro ⟨hm, hs⟩
    obtain ⟨⟨k0, v0⟩, hm0, rfl⟩ := List.mem_map.mp hm
    have hf := List.mem_filter.mp hm0
    have hf2 := hf.2
    simp only [decide_eq_true_eq] at hf2
    exact ⟨List.mem_map.mpr ⟨_, hf.1, rfl⟩, hf2.1, hf2.2, hs⟩
  · rintro ⟨hm, hmsg, hr, hs⟩
    obtain ⟨⟨k0, v0⟩, hm0, rfl⟩ := List.mem_map.mp hm
    exact ⟨List.mem_map.mpr
      ⟨_, List.mem_filter.mpr ⟨hm0, by simp [hmsg, hr]⟩, rfl⟩, hs⟩

theorem pair_mem_default_block {c : Config} {l : List (String × Json)}
    {k : String} {v : Json} :
    (k, v) ∈ (l.filter
        (fun kv => kv.1 ∉ BUNYAN_REQUIRED_FIELDS)).flatMap
        (fun kv => serialize_field c kv.1 kv.2) ↔
      (k, v) ∈ l ∧ k ∉ BUNYAN_REQUIRED_FIELDS ∧ k ∉ c.skip_fields := by
  rw [mem_flatMap_serialize_field]
  constructor
  · rintro ⟨hm, hs⟩
    have hf := List.mem_filter.mp hm
    exact ⟨hf.1, by simpa using hf.2, hs⟩
  · rintro ⟨hm, hr, hs⟩
    exact ⟨List.mem_filter.mpr ⟨hm, by simpa using hr⟩, hs⟩

theorem pair_mem_event_block {c : Config} {l : List (String × Json)}
    {k : String} {v : Json} :
    (k, v) ∈ (l.filter
        (fun kv => kv.1 ≠ "message" ∧ kv.1 ∉ BUNYAN_REQUIRED_FIELDS)).flatMap
        (fun kv => serialize_field c kv.1 kv.2) ↔
      (k, v) ∈ l ∧ k ≠ "message" ∧ k ∉ BUNYAN_REQUIRED_FIELDS ∧
        k ∉ c.skip_fields := by
  rw [mem_flatMap_serialize_field]
  constructor
  · rintro ⟨hm, hs⟩
    have hf := List.mem_filter.mp hm
    have hf2 := hf.2
    simp only [decide_eq_true_eq] at hf2
    exact ⟨hf.1, hf2.1, hf2.2, hs⟩
  · rintro ⟨hm, hmsg, hr, hs⟩
    exact ⟨List.mem_filter.mpr ⟨hm, by simp [hmsg, hr]⟩, hs⟩

theorem mem_keys_span_type_block {c : Config} {ty : RecType} {k : String} :
    k ∈ recordKeys (if c.serialize_span_type then
        serialize_field c "span_type" (.str ty.display)
      else []) ↔
      c.serialize_span_type = true ∧ k = "span_type" ∧
        "span_type" ∉ c.skip_fields := by
  by_cases h : c.serialize_span_type <;>
    simp [h, mem_recordKeys_serialize_field]

theorem mem_keys_span_ids_block {c : Config} {span : SpanRef} {k : String} :
    k ∈ recordKeys (if c.serialize_span_id then
        (match span.parent with
         | some parent_span =>
             serialize_field c "parent_span_id" (.str (format_span_id parent_span))
         | none => []) ++
        serialize_field c "span_id" (.str (format_span_id span))
      else []) ↔
      c.serialize_span_id = true ∧
        ((k = "parent_span_id" ∧ (∃ p, span.parent = some p) ∧
            "parent_span_id" ∉ c.skip_fields) ∨
          (k = "span_id" ∧ "span_id" ∉ c.skip_fields)) := by
  by_cases h : c.serialize_span_id <;>
  cases hp : span.parent <;>
  simp [h, hp, recordKeys_append, mem_recordKeys_serialize_field]

theorem mem_keys_visitor_block {c : Config} {vis : Option (List (String × Json))}
    {k : String} :
    k ∈ recordKeys (match vis with
      | some vs =>
          (vs.filter (fun kv => kv.1 ∉ BUNYAN_REQUIRED_FIELDS)).flatMap
            (fun kv => serialize_field c kv.1 kv.2)
      | none => []) ↔
      ∃ vs, vis = some vs ∧ k ∈ recordKeys vs ∧ k ∉ BUNYAN_REQUIRED_FIELDS ∧
        k ∉ c.skip_fields := by
  cases vis with
  | none => simp
  | some vs =>
      have h := @mem_keys_default_block c vs k
      simpa using h

theorem mem_keys_serialize_span {c : Config} {now : Option String}
    {span : SpanRef} {ty : RecType} {attrs : Option (List (String × Json))}
    {k : String} :
    k ∈ recordKeys (serialize_span c now span ty attrs) ↔
      k ∈ coreKeys now ∨
      (k = "target" ∧ "target" ∉ c.skip_fields) ∨
      (k = "line" ∧ "line" ∉ c.skip_fields) ∨
      (k = "file" ∧ "file" ∉ c.skip_fields) ∨
      (c.serialize_span_type = true ∧ k = "span_type" ∧
        "span_type" ∉ c.skip_fields) ∨
      (c.serialize_span_id = true ∧
        ((k = "parent_span_id" ∧ (∃ p, span.parent = some p) ∧
            "parent_span_id" ∉ c.skip_fields) ∨
          (k = "span_id" ∧ "span_id" ∉ c.skip_fields))) ∨
      (k ∈ recordKeys c.default_fields ∧ k ∉ BUNYAN_REQUIRED_FIELDS ∧
        k ∉ c.skip_fields) ∨
      (∃ vs, span_visitor span attrs = some vs ∧ k ∈ recordKeys vs ∧
        k ∉ BUNYAN_REQUIRED_FIELDS ∧ k ∉ c.skip_fields) := by
  simp only [serialize_span, recordKeys_append, List.mem_append,
    recordKeys_core, mem_recordKeys_serialize_field, mem_keys_span_type_block,
    mem_keys_span_ids_block, mem_keys_default_block, mem_keys_visitor_block]
  simp [or_assoc]

theorem mem_keys_event_ids_block {c : Config} {cs : Option SpanRef} {k : String} :
    k ∈ recordKeys (if c.serialize_span_id then
        match cs with
        | some span =>
            (match span.parent with
             | some parent_span =>
                 serialize_field c "parent_span_id"
                   (.str (format_span_id parent_span))
             | none => []) ++
            serialize_field c "span_id" (.str (format_span_id span))
        | none => []
      else []) ↔
      c.serialize_span_id = true ∧ ∃ sp, cs = some sp ∧
        ((k = "parent_span_id" ∧ (∃ p, sp.parent = some p) ∧
            "parent_span_id" ∉ c.skip_fields) ∨
          (k = "span_id" ∧ "span_id" ∉ c.skip_fields)) := by
  by_cases h : c.serialize_span_id
  · cases cs with
    | none => simp [h]
    | some sp =>
        have hb := @mem_keys_span_ids_block c sp k
        rw [if_pos h] at hb
        simpa [h] using hb
  · simp [h]

theorem mem_keys_span_fields_block {c : Config} {cs : Option SpanRef}
    {k : String} :
    k ∈ recordKeys (if c.serialize_span_fields then
        match cs with
        | some span =>
            match span.data.ext with
            | some vs =>
                (vs.filter (fun kv => kv.1 ∉ BUNYAN_REQUIRED_FIELDS)).flatMap
                  (fun kv => serialize_field c kv.1 kv.2)
            | none => []
        | none => []
      else []) ↔
      c.serialize_span_fields = true ∧ ∃ sp vs, cs = some sp ∧
        sp.data.ext = some vs ∧ k ∈ recordKeys vs ∧
        k ∉ BUNYAN_REQUIRED_FIELDS ∧ k ∉ c.skip_fields := by
  by_cases h : c.serialize_span_fields
  · cases cs with
    | none => simp [h]
    | some sp =>
        cases hext : sp.data.ext with
        | none => simp [h, hext]
        | some vs =>
            have hb := @mem_keys_default_block c vs k
            simp [h, hext]
            simpa using hb
  · simp [h]

theorem mem_keys_on_event_record {c : Config} {now : Option String}
    {current_span : Option SpanRef} {eventLevel : Level} {eventTarget : String}
    {eventLine : Option Nat} {eventFile : Option String}
    {event_values : List (String × Json)} {k : String} :
    k ∈ recordKeys (on_event_record c now current_span eventLevel eventTarget
        eventLine eventFile event_values) ↔
      k ∈ coreKeys now ∨
      (k = "target" ∧ "target" ∉ c.skip_fields) ∨
      (k = "line" ∧ "line" ∉ c.skip_fields) ∨
      (k = "file" ∧ "file" ∉ c.skip_fields) ∨
      (k ∈ recordKeys c.default_fields ∧ k ≠ "message" ∧
        k ∉ BUNYAN_REQUIRED_FIELDS ∧ k ∉ c.skip_fields) ∨
      (c.serialize_span_id = true ∧ ∃ sp, current_span = some sp ∧
        ((k = "parent_span_id" ∧ (∃ p, sp.parent = some p) ∧
            "parent_span_id" ∉ c.skip_fields) ∨
          (k = "span_id" ∧ "span_id" ∉ c.skip_fields))) ∨
      (k ∈ recordKeys event_values ∧ k ≠ "message" ∧
        k ∉ BUNYAN_REQUIRED_FIELDS ∧ k ∉ c.skip_fields) ∨
      (c.serialize_span_fields = true ∧ ∃ sp vs, current_span = some sp ∧
        sp.data.ext = some vs ∧ k ∈ recordKeys vs ∧
        k ∉ BUNYAN_REQUIRED_FIELDS ∧ k ∉ c.skip_fields) := by
  simp only [on_event_record, recordKeys_append, List.mem_append,
    recordKeys_core, mem_recordKeys_serialize_field, mem_keys_event_block,
    mem_keys_event_ids_block, mem_keys_span_fields_block]
  simp [or_assoc]

/-! ### Lemmas about `skip_fields` -/

theorem insertSkip_mem {s : List String} {f k : String} :
    k ∈ insertSkip s f ↔ k ∈ s ∨ k = f := by
  by_cases h : f ∈ s
  · simp only [insertSkip, if_pos h]
    constructor
    · exact Or.inl
    · rintro (hk | rfl)
      · exact hk
      · exact h
  · simp [insertSkip, h]

theorem skip_fields_loop_err_of_mem {names : List String} :
    ∀ s : List String, (∃ f ∈ names, f ∈ BUNYAN_REQUIRED_FIELDS) →
      ∃ e, skip_fields_loop s names = .error e := by
  induction names with
  | nil => rintro s ⟨f, hf, -⟩; simp at hf
  | cons f rest ih =>
      rintro s ⟨g, hg, hr⟩
      by_cases hf : f ∈ BUNYAN_REQUIRED_FIELDS
      · exact ⟨⟨f⟩, by simp [skip_fields_loop, hf]⟩
      · rcases List.mem_cons.mp hg with rfl | hg2
        · exact absurd hr hf
        · obtain ⟨e, he⟩ := ih (insertSkip s f) ⟨g, hg2, hr⟩
          exact ⟨e, by simp [skip_fields_loop, hf, he]⟩

theorem skip_fields_loop_ok_of_forall {names : List String} :
    ∀ s : List String, (∀ f ∈ names, f ∉ BUNYAN_REQUIRED_FIELDS) →
      ∃ s', skip_fields_loop s names = .ok s' := by
  induction names with
  | nil => intro s _; exact ⟨s, rfl⟩
  | cons f rest ih =>
      intro s h
      have hf : f ∉ BUNYAN_REQUIRED_FIELDS := h f (List.mem_cons_self f rest)
      obtain ⟨s', hs⟩ := ih (insertSkip s f)
        (fun g hg => h g (List.mem_cons_of_mem f hg))
      exact ⟨s', by simp [skip_fields_loop, hf, hs]⟩

theorem skip_fields_loop_error_iff {names : List String} {s : List String}
    {e : SkipFieldError} :
    skip_fields_loop s names = .error e ↔
      names.find? (fun f => f ∈ BUNYAN_REQUIRED_FIELDS) = some e.field := by
  induction names generalizing s with
  | nil => simp [skip_fields_loop, List.find?]
  | cons f rest ih =>
      obtain ⟨ef⟩ := e
      by_cases hf : f ∈ BUNYAN_REQUIRED_FIELDS
      · simp [skip_fields_loop, hf, List.find?_cons, SkipFieldError.mk.injEq,
          eq_comm]
      · simp [skip_fields_loop, hf, List.find?_cons, ih]

theorem skip_fields_loop_ok_mem {names : List String} :
    ∀ {s s' : List String}, skip_fields_loop s names = .ok s' →
      ∀ k, k ∈ s' ↔ (k ∈ s ∨ k ∈ names) := by
  induction names with
  | nil =>
      intro s s' h k
      simp only [skip_fields_loop] at h
      cases h
      simp
  | cons f rest ih =>
      intro s s' h k
      by_cases hf : f ∈ BUNYAN_REQUIRED_FIELDS
      · simp [skip_fields_loop, hf] at h
      · simp only [skip_fields_loop, if_neg hf] at h
        rw [ih h k, insertSkip_mem]
        simp only [List.mem_cons]
        tauto

/-- C2: `skip_fields(names)` returns an error naming the offending field
(the first supplied name that is a mandatory core key) if and only if some
supplied name is one of the 7 mandatory core keys; otherwise it adds every
supplied name to the skip set idempotently (the resulting skip set is the
set union, so duplicates are no-ops and order is irrelevant), and the
optional core field names `target`, `line`, `file` are accepted. -/
theorem C2_skip_fields (c : Config) (names : List String) :
    ((∃ f ∈ names, f ∈ BUNYAN_REQUIRED_FIELDS) ↔
      ∃ e, skip_fields c names = .error e) ∧
    (∀ e, skip_fields c names = .error e →
      names.find? (fun f => f ∈ BUNYAN_REQUIRED_FIELDS) = some e.field ∧
      e.display = e.field ++
        " is a core field in the bunyan log format, it can\x27t be skipped") ∧
    (∀ c', skip_fields c names = .ok c' →
      ∀ k, k ∈ c'.skip_fields ↔ (k ∈ c.skip_fields ∨ k ∈ names)) ∧
    (∃ c', skip_fields c ["target", "line", "file"] = .ok c') := by
  refine ⟨⟨?_, ?_⟩, ?_, ?_, ?_⟩
  · rintro ⟨f, hm, hr⟩
    obtain ⟨e, he⟩ := skip_fields_loop_err_of_mem c.skip_fields ⟨f, hm, hr⟩
    exact ⟨e, by simp [skip_fields, he]⟩
  · rintro ⟨e, he⟩
    unfold skip_fields at he
    cases hl : skip_fields_loop c.skip_fields names with
    | ok s => rw [hl] at he; simp at he
    | error e2 =>
        have hf := skip_fields_loop_error_iff.mp hl
        exact ⟨e2.field, List.mem_of_find?_eq_some hf,
          by simpa using List.find?_some hf⟩
  · intro e he
    unfold skip_fields at he
    cases hl : skip_fields_loop c.skip_fields names with
    | ok s => rw [hl] at he; simp at he
    | error e2 =>
        rw [hl] at he
        simp only [Except.error.injEq] at he
        subst he
        exact ⟨skip_fields_loop_error_iff.mp hl, rfl⟩
  · intro c' hc k
    unfold skip_fields at hc
    cases hl : skip_fields_loop c.skip_fields names with
    | error e => rw [hl] at hc; simp at hc
    | ok s =>
        rw [hl] at hc
        simp only [Except.ok.injEq] at hc
        subst hc
        exact skip_fields_loop_ok_mem hl k
  · have hok : ∀ f ∈ ["target", "line", "file"], f ∉ BUNYAN_REQUIRED_FIELDS := by
      decide
    obtain ⟨s', hs⟩ := skip_fields_loop_ok_of_forall c.skip_fields hok
    refine ⟨{ c with skip_fields := s' }, ?_⟩
    simp [skip_fields, hs]

/-- C2 witness: skipping `level` fails, skipping `target`, `line`, `file`
succeeds, on a concretely constructed layer. -/
theorem C2_skip_fields_witness :
    (∃ e, skip_fields (with_default_fields "test" 1 "host" []) ["level"] =
      .error e) ∧
    (∃ c', skip_fields (with_default_fields "test" 1 "host" [])
      ["target", "line", "file"] = .ok c') :=
  ⟨(C2_skip_fields (with_default_fields "test" 1 "host" []) ["level"]).1.mp
      ⟨"level", by decide, by decide⟩,
    (C2_skip_fields (with_default_fields "test" 1 "host" []) ["level"]).2.2.2⟩

/-- C4: no error ever propagates out of the three lifecycle notifications
back to the host framework: for every serialization outcome and every sink
write outcome, each hook surfaces nothing (`propagated = none`); a
serialization failure discards that one record with nothing emitted; on
success exactly one record is emitted; and the write result is discarded,
so the hook's entire effect is independent of it. Each hook's effect is a
function of that call's own inputs only, so subsequent records are
unaffected by an earlier failure. -/
theorem C4_no_error_propagation (c : Config) (now : Option String)
    (cs : Option SpanRef) (lvl : Level) (tgt : String) (line : Option Nat)
    (file : Option String) (vals : List (String × Json)) (span : SpanRef)
    (attrs : List (String × Json)) (created_ms now_ms : Nat)
    (ser : Option String) (w w' : Option String) :
    (run_on_event c now cs lvl tgt line file vals ser w).propagated = none ∧
    (run_on_new_span c now span attrs ser w).propagated = none ∧
    (run_on_close c now span created_ms now_ms ser w).propagated = none ∧
    (∀ e, ser = some e →
      (run_on_event c now cs lvl tgt line file vals ser w).emitted = [] ∧
      (run_on_new_span c now span attrs ser w).emitted = [] ∧
      (run_on_close c now span created_ms now_ms ser w).emitted = []) ∧
    (ser = none →
      (run_on_event c now cs lvl tgt line file vals ser w).emitted =
        [on_event_record c now cs lvl tgt line file vals] ∧
      (run_on_new_span c now span attrs ser w).emitted =
        [on_new_span_record c now span attrs] ∧
      (run_on_close c now span created_ms now_ms ser w).emitted =
        [on_close_record c now span created_ms now_ms]) ∧
    (run_on_event c now cs lvl tgt line file vals ser w =
      run_on_event c now cs lvl tgt line file vals ser w' ∧
     run_on_new_span c now span attrs ser w =
      run_on_new_span c now span attrs ser w' ∧
     run_on_close c now span created_ms now_ms ser w =
      run_on_close c now span created_ms now_ms ser w') := by
  cases ser <;>
    simp [run_on_event, run_on_new_span, run_on_close]

/-- C4 witness: concrete instantiation, with both a failing and a succeeding
serialization outcome discharged. -/
theorem C4_no_error_propagation_witness :
    (run_on_event (with_default_fields "test" 1 "host" []) (some "t") none
        .info "app" none none [] (some "serde failure") (some "io failure")
      ).propagated = none ∧
    (run_on_event (with_default_fields "test" 1 "host" []) (some "t") none
        .info "app" none none [] (some "serde failure") (some "io failure")
      ).emitted = [] :=
  ⟨(C4_no_error_propagation (with_default_fields "test" 1 "host" []) (some "t")
      none .info "app" none none [] ⟨⟨0, "s", .info, "a", none, none, none⟩, []⟩
      [] 0 0 (some "serde failure") (some "io failure") none).1,
    ((C4_no_error_propagation (with_default_fields "test" 1 "host" []) (some "t")
      none .info "app" none none [] ⟨⟨0, "s", .info, "a", none, none, none⟩, []⟩
      [] 0 0 (some "serde failure") (some "io failure") none).2.2.2.1
      "serde failure" rfl).1⟩

/-! ### Lookups of the core fields -/

theorem getField_core_v (c : Config) (now : Option String) (m : String)
    (lvl : Level) :
    getField (serialize_bunyan_core_fields c now m lvl) "v" =
      some (.num c.bunyan_version) := by
  simp [serialize_bunyan_core_fields, getField]

theorem getField_core_name (c : Config) (now : Option String) (m : String)
    (lvl : Level) :
    getField (serialize_bunyan_core_fields c now m lvl) "name" =
      some (.str c.name) := by
  simp [serialize_bunyan_core_fields, getField]

theorem getField_core_msg (c : Config) (now : Option String) (m : String)
    (lvl : Level) :
    getField (serialize_bunyan_core_fields c now m lvl) "msg" =
      some (.str m) := by
  simp [serialize_bunyan_core_fields, getField]

theorem getField_core_level (c : Config) (now : Option String) (m : String)
    (lvl : Level) :
    getField (serialize_bunyan_core_fields c now m lvl) "level" =
      some (.num (to_bunyan_level lvl)) := by
  simp [serialize_bunyan_core_fields, getField]

theorem getField_core_hostname (c : Config) (now : Option String) (m : String)
    (lvl : Level) :
    getField (serialize_bunyan_core_fields c now m lvl) "hostname" =
      some (.str c.hostname) := by
  simp [serialize_bunyan_core_fields, getField]

theorem getField_core_pid (c : Config) (now : Option String) (m : String)
    (lvl : Level) :
    getField (serialize_bunyan_core_fields c now m lvl) "pid" =
      some (.num c.pid) := by
  simp [serialize_bunyan_core_fields, getField]

theorem getField_core_time (c : Config) (t : String) (m : String)
    (lvl : Level) :
    getField (serialize_bunyan_core_fields c (some t) m lvl) "time" =
      some (.str t) := by
  simp [serialize_bunyan_core_fields, getField]

/-- The `msg` entry of a span record is the first-block message. -/
theorem getField_serialize_span_msg (c : Config) (now : Option String)
    (span : SpanRef) (ty : RecType) (attrs : Option (List (String × Json))) :
    getField (serialize_span c now span ty attrs) "msg" =
      some (.str (if c.serialize_span_type then span.data.name
        else format_span_context span ty)) := by
  simp only [serialize_span, List.append_assoc]
  by_cases h : c.serialize_span_type <;>
    simp only [h, if_true, if_false, Bool.false_eq_true, Option.getD_some,
      Option.getD_none] <;>
    exact getField_append_left (getField_core_msg ..)

/-- The `msg` entry of an event record is the formatted event message. -/
theorem getField_on_event_record_msg (c : Config) (now : Option String)
    (cs : Option SpanRef) (lvl : Level) (tgt : String) (line : Option Nat)
    (file : Option String) (vals : List (String × Json)) :
    getField (on_event_record c now cs lvl tgt line file vals) "msg" =
      some (.str (format_event_message cs tgt vals c.serialize_span_type)) := by
  simp only [on_event_record, List.append_assoc]
  exact getField_append_left (getField_core_msg ..)

/-- C5: derivation of the `msg` field. For span-enter/span-exit records with
span-type serialization disabled, msg is the bracketed uppercased span name
with START/END; with it enabled, msg is the raw span name. For event
records, msg is the event's own `message` field when present and a string,
else the event's target, prefixed with the bracketed EVENT tag exactly when
span-type serialization is disabled and the event is inside a span. -/
theorem C5_message_derivation (c : Config) (now : Option String)
    (span : SpanRef) (attrs : Option (List (String × Json)))
    (created_ms now_ms : Nat) (lvl : Level) (tgt : String) (line : Option Nat)
    (file : Option String) (vals : List (String × Json)) (sp : SpanRef) :
    (c.serialize_span_type = false →
      getField (serialize_span c now span .EnterSpan attrs) "msg" =
        some (.str ("[" ++ span.data.name.toUpper ++ " - START]")) ∧
      getField (on_close_record c now span created_ms now_ms) "msg" =
        some (.str ("[" ++ span.data.name.toUpper ++ " - END]"))) ∧
    (c.serialize_span_type = true →
      getField (serialize_span c now span .EnterSpan attrs) "msg" =
        some (.str span.data.name) ∧
      getField (on_close_record c now span created_ms now_ms) "msg" =
        some (.str span.data.name)) ∧
    (c.serialize_span_type = false →
      getField (on_event_record c now (some sp) lvl tgt line file vals) "msg" =
        some (.str ("[" ++ sp.data.name.toUpper ++ " - EVENT] " ++
          (match getField vals "message" with
           | some (.str s) => s
           | _ => tgt)))) ∧
    (c.serialize_span_type = true →
      getField (on_event_record c now (some sp) lvl tgt line file vals) "msg" =
        some (.str (match getField vals "message" with
          | some (.str s) => s
          | _ => tgt))) ∧
    (getField (on_event_record c now none lvl tgt line file vals) "msg" =
      some (.str (match getField vals "message" with
        | some (.str s) => s
        | _ => tgt))) := by
  refine ⟨?_, ?_, ?_, ?_, ?_⟩
  · intro h
    constructor
    · rw [getField_serialize_span_msg]
      simp [h, format_span_context, RecType.display, String.append_assoc]
    · rw [on_close_record, getField_serialize_span_msg]
      simp [h, format_span_context, RecType.display, String.append_assoc,
        close_span]
  · intro h
    constructor
    · rw [getField_serialize_span_msg]
      simp [h]
    · rw [on_close_record, getField_serialize_span_msg]
      simp [h, close_span]
  · intro h
    rw [getField_on_event_record_msg]
    simp [h, format_event_message, format_span_context, RecType.display,
      String.append_assoc]
  · intro h
    rw [getField_on_event_record_msg]
    simp [h, format_event_message]
  · rw [getField_on_event_record_msg]
    cases hm : getField vals "message" with
    | none => simp [format_event_message, hm]
    | some v => cases v <;> simp [format_event_message, hm]

/-- C5 witness: the span-enter record of a concrete span named
`shaving_yaks`, on a default-configured layer, has the bracketed uppercased
message. -/
theorem C5_message_derivation_witness :
    getField (serialize_span (with_default_fields "test" 1 "host" [])
        (some "2026-10-12T00:00:00Z")
        ⟨⟨3, "shaving_yaks", .debug, "app", none, none, none⟩, []⟩
        .EnterSpan none) "msg" =
      some (.str ("[" ++ "shaving_yaks".toUpper ++ " - START]")) :=
  ((C5_message_derivation (with_default_fields "test" 1 "host" [])
      (some "2026-10-12T00:00:00Z")
      ⟨⟨3, "shaving_yaks", .debug, "app", none, none, none⟩, []⟩ none 0 0
      .info "app" none none []
      ⟨⟨3, "shaving_yaks", .debug, "app", none, none, none⟩, []⟩).1 rfl).1

/-- C3: every emitted record (span-enter/span-exit via `serialize_span`,
event via `on_event_record`) contains the 7 mandatory core fields with the
claimed types and values: integer `v`, `name` equal to the configured record
name, string `msg`, integer `level` in {10,20,30,40,50} via the fixed
trace/debug/info/warn/error mapping, string `hostname`, integer `pid`, and
`time` carrying the out-of-scope clock collaborator's RFC-3339 UTC string
(hypothesis `ht` is that collaborator's formatting guarantee). -/
theorem C3_core_fields (c : Config) (t : String) (span : SpanRef)
    (ty : RecType) (attrs : Option (List (String × Json))) (lvl : Level)
    (tgt : String) (line : Option Nat) (file : Option String)
    (vals : List (String × Json)) (cs : Option SpanRef)
    (ht : isRfc3339Utc t = true) :
    (∀ r, (r = serialize_span c (some t) span ty attrs ∨
        r = on_event_record c (some t) cs lvl tgt line file vals) →
      getField r "v" = some (.num c.bunyan_version) ∧
      getField r "name" = some (.str c.name) ∧
      (∃ m, getField r "msg" = some (.str m)) ∧
      (∃ l, getField r "level" = some (.num (to_bunyan_level l))) ∧
      getField r "hostname" = some (.str c.hostname) ∧
      getField r "pid" = some (.num c.pid) ∧
      getField r "time" = some (.str t) ∧ isRfc3339Utc t = true) ∧
    (∀ l, to_bunyan_level l = 10 ∨ to_bunyan_level l = 20 ∨
      to_bunyan_level l = 30 ∨ to_bunyan_level l = 40 ∨
      to_bunyan_level l = 50) ∧
    to_bunyan_level .trace = 10 ∧ to_bunyan_level .debug = 20 ∧
    to_bunyan_level .info = 30 ∧ to_bunyan_level .warn = 40 ∧
    to_bunyan_level .error = 50 := by
  refine ⟨?_, by intro l; cases l <;> simp [to_bunyan_level], rfl, rfl, rfl,
    rfl, rfl⟩
  rintro r (rfl | rfl)
  · simp only [serialize_span, List.append_assoc]
    exact ⟨getField_append_left (getField_core_v ..),
      getField_append_left (getField_core_name ..),
      ⟨_, getField_append_left (getField_core_msg ..)⟩,
      ⟨span.data.level, getField_append_left (getField_core_level ..)⟩,
      getField_append_left (getField_core_hostname ..),
      getField_append_left (getField_core_pid ..),
      getField_append_left (getField_core_time ..), ht⟩
  · simp only [on_event_record, List.append_assoc]
    exact ⟨getField_append_left (getField_core_v ..),
      getField_append_left (getField_core_name ..),
      ⟨_, getField_append_left (getField_core_msg ..)⟩,
      ⟨lvl, getField_append_left (getField_core_level ..)⟩,
      getField_append_left (getField_core_hostname ..),
      getField_append_left (getField_core_pid ..),
      getField_append_left (getField_core_time ..), ht⟩

/-- C3 witness: concrete record on a concrete RFC-3339 UTC timestamp. -/
theorem C3_core_fields_witness :
    isRfc3339Utc "2026-10-12T00:00:00Z" = true ∧
    getField (on_event_record (with_default_fields "test" 1 "host" [])
        (some "2026-10-12T00:00:00Z") none .info "app" none none [])
      "name" = some (.str "test") :=
  ⟨by decide,
    ((C3_core_fields (with_default_fields "test" 1 "host" [])
        "2026-10-12T00:00:00Z"
        ⟨⟨0, "s", .info, "a", none, none, none⟩, []⟩ .EnterSpan none
        .info "app" none none [] none (by decide)).1
      (on_event_record (with_default_fields "test" 1 "host" [])
        (some "2026-10-12T00:00:00Z") none .info "app" none none [])
      (Or.inr rfl)).2.1⟩

theorem getField_serialize_field_ne {c : Config} {key : String} {v : Json}
    {k : String} (h : k ≠ key) :
    getField (serialize_field c key v) k = none := by
  by_cases hs : key ∈ c.skip_fields <;>
    simp [serialize_field, hs, getField, Ne.symm h]

theorem getField_serialize_field_self {c : Config} {key : String} {v : Json}
    (hs : key ∉ c.skip_fields) :
    getField (serialize_field c key v) key = some v := by
  simp [serialize_field, hs, getField]

theorem getField_serialize_span_span_id {c : Config} {now : Option String}
    {span : SpanRef} {ty : RecType} {attrs : Option (List (String × Json))}
    (hid : c.serialize_span_id = true) (hs : "span_id" ∉ c.skip_fields) :
    getField (serialize_span c now span ty attrs) "span_id" =
      some (.str (format_span_id span)) := by
  simp only [serialize_span, hid, if_true, List.append_assoc]
  rw [getField_append_right (by rw [recordKeys_core]; cases now <;> simp [coreKeys])]
  rw [getField_append_right (by simp [mem_recordKeys_serialize_field])]
  rw [getField_append_right (by simp [mem_recordKeys_serialize_field])]
  rw [getField_append_right (by simp [mem_recordKeys_serialize_field])]
  rw [getField_append_right (by simp [mem_keys_span_type_block])]
  rw [getField_append_right
    (by cases hp : span.parent <;> simp [hp, mem_recordKeys_serialize_field])]
  exact getField_append_left (getField_serialize_field_self hs)

theorem getField_serialize_span_parent_id {c : Config} {now : Option String}
    {span : SpanRef} {p : SpanRef} {ty : RecType}
    {attrs : Option (List (String × Json))}
    (hid : c.serialize_span_id = true) (hp : span.parent = some p)
    (hs : "parent_span_id" ∉ c.skip_fields) :
    getField (serialize_span c now span ty attrs) "parent_span_id" =
      some (.str (format_span_id p)) := by
  simp only [serialize_span, hid, if_true, List.append_assoc]
  rw [getField_append_right (by rw [recordKeys_core]; cases now <;> simp [coreKeys])]
  rw [getField_append_right (by simp [mem_recordKeys_serialize_field])]
  rw [getField_append_right (by simp [mem_recordKeys_serialize_field])]
  rw [getField_append_right (by simp [mem_recordKeys_serialize_field])]
  rw [getField_append_right (by simp [mem_keys_span_type_block])]
  rw [hp]
  exact getField_append_left (getField_serialize_field_self hs)

theorem getField_on_event_span_id {c : Config} {now : Option String}
    {sp : SpanRef} {lvl : Level} {tgt : String} {line : Option Nat}
    {file : Option String} {vals : List (String × Json)}
    (hid : c.serialize_span_id = true) (hs : "span_id" ∉ c.skip_fields)
    (hd : "span_id" ∉ recordKeys c.default_fields) :
    getField (on_event_record c now (some sp) lvl tgt line file vals)
      "span_id" = some (.str (format_span_id sp)) := by
  simp only [on_event_record, hid, if_true, List.append_assoc]
  rw [getField_append_right (by rw [recordKeys_core]; cases now <;> simp [coreKeys])]
  rw [getField_append_right (by simp [mem_recordKeys_serialize_field])]
  rw [getField_append_right (by simp [mem_recordKeys_serialize_field])]
  rw [getField_append_right (by simp [mem_recordKeys_serialize_field])]
  rw [getField_append_right (fun h => hd (mem_keys_event_block.mp h).1)]
  rw [getField_append_right
    (by cases hp : sp.parent <;> simp [hp, mem_recordKeys_serialize_field])]
  exact getField_append_left (getField_serialize_field_self hs)

theorem getField_on_event_parent_id {c : Config} {now : Option String}
    {sp p : SpanRef} {lvl : Level} {tgt : String} {line : Option Nat}
    {file : Option String} {vals : List (String × Json)}
    (hid : c.serialize_span_id = true) (hp : sp.parent = some p)
    (hs : "parent_span_id" ∉ c.skip_fields)
    (hd : "parent_span_id" ∉ recordKeys c.default_fields) :
    getField (on_event_record c now (some sp) lvl tgt line file vals)
      "parent_span_id" = some (.str (format_span_id p)) := by
  simp only [on_event_record, hid, if_true, List.append_assoc]
  rw [getField_append_right (by rw [recordKeys_core]; cases now <;> simp [coreKeys])]
  rw [getField_append_right (by simp [mem_recordKeys_serialize_field])]
  rw [getField_append_right (by simp [mem_recordKeys_serialize_field])]
  rw [getField_append_right (by simp [mem_recordKeys_serialize_field])]
  rw [getField_append_right (fun h => hd (mem_keys_event_block.mp h).1)]
  rw [hp]
  exact getField_append_left (getField_serialize_field_self hs)

theorem SpanRef.parent_eq_none_of_root {span : SpanRef}
    (h : span.ancestors = []) : span.parent = none := by
  simp [SpanRef.parent, h]

/-- C10: every emitted `span_id` / `parent_span_id` value is produced by the
shared `format_span_id`, i.e. the string `span-` followed by the span's
identity in decimal, so a record's `parent_span_id` is textually identical
to the `span_id` emitted for the parent span itself — for span records and
event records alike. -/
theorem C10_span_id_format (c : Config) (now : Option String) (span p : SpanRef)
    (ty ty' : RecType) (attrs attrs' : Option (List (String × Json)))
    (lvl : Level) (tgt : String) (line : Option Nat) (file : Option String)
    (vals : List (String × Json))
    (hid : c.serialize_span_id = true) (hp : span.parent = some p)
    (hs1 : "span_id" ∉ c.skip_fields) (hs2 : "parent_span_id" ∉ c.skip_fields)
    (hd1 : "span_id" ∉ recordKeys c.default_fields)
    (hd2 : "parent_span_id" ∉ recordKeys c.default_fields) :
    format_span_id span = "span-" ++ toString span.data.ident ∧
    getField (serialize_span c now span ty attrs) "parent_span_id" =
      some (.str (format_span_id p)) ∧
    getField (serialize_span c now p ty' attrs') "span_id" =
      some (.str (format_span_id p)) ∧
    getField (serialize_span c now span ty attrs) "parent_span_id" =
      getField (serialize_span c now p ty' attrs') "span_id" ∧
    getField (on_event_record c now (some span) lvl tgt line file vals)
      "parent_span_id" = some (.str (format_span_id p)) ∧
    getField (on_event_record c now (some span) lvl tgt line file vals)
      "span_id" = some (.str (format_span_id span)) ∧
    getField (on_event_record c now (some span) lvl tgt line file vals)
      "parent_span_id" =
      getField (serialize_span c now p ty' attrs') "span_id" := by
  have h1 := @getField_serialize_span_parent_id c now span p ty attrs hid hp hs2
  have h2 := @getField_serialize_span_span_id c now p ty' attrs' hid hs1
  have h3 := @getField_on_event_parent_id c now span p lvl tgt line file vals
    hid hp hs2 hd2
  exact ⟨rfl, h1, h2, h1.trans h2.symm, h3,
    getField_on_event_span_id hid hs1 hd1, h3.trans h2.symm⟩

/-- C10 witness: with span-id serialization enabled, the `parent_span_id` of
an event inside a concrete child span is textually identical to the
`span_id` of the parent span's own record. -/
theorem C10_span_id_format_witness :
    getField (on_event_record
        ⟨1, "host", 0, "test", [], [], false, true, true⟩ (some "t")
        (some ⟨⟨2, "child_span", .debug, "app", none, none, none⟩,
          [⟨1, "parent_span", .debug, "app", none, none, none⟩]⟩)
        .info "app" none none []) "parent_span_id" =
      getField (serialize_span
        ⟨1, "host", 0, "test", [], [], false, true, true⟩ (some "t")
        ⟨⟨1, "parent_span", .debug, "app", none, none, none⟩, []⟩
        .EnterSpan none) "span_id" :=
  (C10_span_id_format ⟨1, "host", 0, "test", [], [], false, true, true⟩
    (some "t")
    ⟨⟨2, "child_span", .debug, "app", none, none, none⟩,
      [⟨1, "parent_span", .debug, "app", none, none, none⟩]⟩
    ⟨⟨1, "parent_span", .debug, "app", none, none, none⟩, []⟩
    .EnterSpan .EnterSpan none none .info "app" none none []
    rfl rfl (by decide) (by decide) (by decide) (by decide)).2.2.2.2.2.2

/-- C7: with span-id serialization enabled, a root-span record (or an event
inside only a root span) carries `span_id` but not `parent_span_id`; a
nested-span record (or an event inside one) carries both, with
`parent_span_id` equal to the enclosing span's `span_id`; an event outside
any span carries neither; with the toggle disabled, no record carries either
key. Hypotheses: neither key is skipped nor occurs among default or captured
fields. -/
theorem C7_span_ids (c : Config) (now : Option String) (span p sp : SpanRef)
    (ty : RecType) (attrs : Option (List (String × Json))) (lvl : Level)
    (tgt : String) (line : Option Nat) (file : Option String)
    (vals : List (String × Json))
    (hs1 : "span_id" ∉ c.skip_fields) (hs2 : "parent_span_id" ∉ c.skip_fields)
    (hd1 : "span_id" ∉ recordKeys c.default_fields)
    (hd2 : "parent_span_id" ∉ recordKeys c.default_fields)
    (hv : ∀ vs, span_visitor span attrs = some vs →
      "span_id" ∉ recordKeys vs ∧ "parent_span_id" ∉ recordKeys vs)
    (he1 : "span_id" ∉ recordKeys vals)
    (he2 : "parent_span_id" ∉ recordKeys vals)
    (hx : ∀ vs, sp.data.ext = some vs →
      "span_id" ∉ recordKeys vs ∧ "parent_span_id" ∉ recordKeys vs) :
    (c.serialize_span_id = true →
      "span_id" ∈ recordKeys (serialize_span c now span ty attrs) ∧
      (span.ancestors = [] →
        "parent_span_id" ∉ recordKeys (serialize_span c now span ty attrs)) ∧
      (span.parent = some p →
        getField (serialize_span c now span ty attrs) "parent_span_id" =
          some (.str (format_span_id p)))) ∧
    (c.serialize_span_id = true →
      "span_id" ∈ recordKeys (on_event_record c now (some sp) lvl tgt line
        file vals) ∧
      (sp.ancestors = [] →
        "parent_span_id" ∉ recordKeys (on_event_record c now (some sp) lvl
          tgt line file vals)) ∧
      (sp.parent = some p →
        getField (on_event_record c now (some sp) lvl tgt line file vals)
          "parent_span_id" = some (.str (format_span_id p)))) ∧
    (c.serialize_span_id = true →
      "span_id" ∉ recordKeys (on_event_record c now none lvl tgt line file
        vals) ∧
      "parent_span_id" ∉ recordKeys (on_event_record c now none lvl tgt line
        file vals)) ∧
    (c.serialize_span_id = false →
      "span_id" ∉ recordKeys (serialize_span c now span ty attrs) ∧
      "parent_span_id" ∉ recordKeys (serialize_span c now span ty attrs) ∧
      "span_id" ∉ recordKeys (on_event_record c now (some sp) lvl tgt line
        file vals) ∧
      "parent_span_id" ∉ recordKeys (on_event_record c now (some sp) lvl tgt
        line file vals)) := by
  refine ⟨?_, ?_, ?_, ?_⟩
  · intro hid
    refine ⟨?_, ?_, fun hp => getField_serialize_span_parent_id hid hp hs2⟩
    · exact mem_keys_serialize_span.mpr (Or.inr (Or.inr (Or.inr (Or.inr
        (Or.inr (Or.inl ⟨hid, Or.inr ⟨rfl, hs1⟩⟩))))))
    · intro hroot h
      rcases mem_keys_serialize_span.mp h with h | h | h | h | h | h | h | h
      · cases now <;> simp [coreKeys] at h
      · simp at h
      · simp at h
      · simp at h
      · simp at h
      · rcases h.2 with ⟨-, ⟨q, hq⟩, -⟩ | ⟨h2, -⟩
        · rw [SpanRef.parent_eq_none_of_root hroot] at hq
          exact Option.noConfusion hq
        · simp at h2
      · exact hd2 h.1
      · obtain ⟨vs, hvs, hmem, -, -⟩ := h
        exact (hv vs hvs).2 hmem
  · intro hid
    refine ⟨?_, ?_, fun hp => getField_on_event_parent_id hid hp hs2 hd2⟩
    · exact mem_keys_on_event_record.mpr (Or.inr (Or.inr (Or.inr (Or.inr
        (Or.inr (Or.inl ⟨hid, sp, rfl, Or.inr ⟨rfl, hs1⟩⟩))))))
    · intro hroot h
      rcases mem_keys_on_event_record.mp h with h | h | h | h | h | h | h | h
      · cases now <;> simp [coreKeys] at h
      · simp at h
      · simp at h
      · simp at h
      · exact hd2 h.1
      · obtain ⟨-, sp2, hsp2, h2⟩ := h
        cases hsp2
        rcases h2 with ⟨-, ⟨q, hq⟩, -⟩ | ⟨h3, -⟩
        · rw [SpanRef.parent_eq_none_of_root hroot] at hq
          exact Option.noConfusion hq
        · simp at h3
      · exact he2 h.1
      · obtain ⟨-, sp2, vs, hsp2, hvs, hmem, -, -⟩ := h
        cases hsp2
        exact (hx vs hvs).2 hmem
  · intro hid
    constructor
    · intro h
      rcases mem_keys_on_event_record.mp h with h | h | h | h | h | h | h | h
      · cases now <;> simp [coreKeys] at h
      · simp at h
      · simp at h
      · simp at h
      · exact hd1 h.1
      · obtain ⟨-, sp2, hsp2, -⟩ := h
        exact Option.noConfusion hsp2
      · exact he1 h.1
      · obtain ⟨-, sp2, vs, hsp2, -⟩ := h
        exact Option.noConfusion hsp2
    · intro h
      rcases mem_keys_on_event_record.mp h with h | h | h | h | h | h | h | h
      · cases now <;> simp [coreKeys] at h
      · simp at h
      · simp at h
      · simp at h
      · exact hd2 h.1
      · obtain ⟨-, sp2, hsp2, -⟩ := h
        exact Option.noConfusion hsp2
      · exact he2 h.1
      · obtain ⟨-, sp2, vs, hsp2, -⟩ := h
        exact Option.noConfusion hsp2
  · intro hid
    refine ⟨?_, ?_, ?_, ?_⟩
    · intro h
      rcases mem_keys_serialize_span.mp h with h | h | h | h | h | h | h | h
      · cases now <;> simp [coreKeys] at h
      · simp at h
      · simp at h
      · simp at h
      · simp at h
      · rw [hid] at h
        simp at h
      · exact hd1 h.1
      · obtain ⟨vs, hvs, hmem, -, -⟩ := h
        exact (hv vs hvs).1 hmem
    · intro h
      rcases mem_keys_serialize_span.mp h with h | h | h | h | h | h | h | h
      · cases now <;> simp [coreKeys] at h
      · simp at h
      · simp at h
      · simp at h
      · simp at h
      · rw [hid] at h
        simp at h
      · exact hd2 h.1
      · obtain ⟨vs, hvs, hmem, -, -⟩ := h
        exact (hv vs hvs).2 hmem
    · intro h
      rcases mem_keys_on_event_record.mp h with h | h | h | h | h | h | h | h
      · cases now <;> simp [coreKeys] at h
      · simp at h
      · simp at h
      · simp at h
      · exact hd1 h.1
      · rw [hid] at h
        simp at h
      · exact he1 h.1
      · obtain ⟨-, sp2, vs, hsp2, hvs, hmem, -, -⟩ := h
        cases hsp2
        exact (hx vs hvs).1 hmem
    · intro h
      rcases mem_keys_on_event_record.mp h with h | h | h | h | h | h | h | h
      · cases now <;> simp [coreKeys] at h
      · simp at h
      · simp at h
      · simp at h
      · exact hd2 h.1
      · rw [hid] at h
        simp at h
      · exact he2 h.1
      · obtain ⟨-, sp2, vs, hsp2, hvs, hmem, -, -⟩ := h
        cases hsp2
        exact (hx vs hvs).2 hmem

/-- C7 witness: a concrete root-span record with span-id serialization
enabled carries `span_id` and not `parent_span_id`. -/
theorem C7_span_ids_witness :
    "span_id" ∈ recordKeys (serialize_span
      ⟨1, "host", 0, "test", [], [], false, true, true⟩ (some "t")
      ⟨⟨1, "parent_span", .debug, "app", none, none, none⟩, []⟩
      .EnterSpan none) ∧
    "parent_span_id" ∉ recordKeys (serialize_span
      ⟨1, "host", 0, "test", [], [], false, true, true⟩ (some "t")
      ⟨⟨1, "parent_span", .debug, "app", none, none, none⟩, []⟩
      .EnterSpan none) := by
  have h := C7_span_ids ⟨1, "host", 0, "test", [], [], false, true, true⟩
    (some "t") ⟨⟨1, "parent_span", .debug, "app", none, none, none⟩, []⟩
    ⟨⟨1, "parent_span", .debug, "app", none, none, none⟩, []⟩
    ⟨⟨1, "parent_span", .debug, "app", none, none, none⟩, []⟩
    .EnterSpan none .info "app" none none []
    (by decide) (by decide) (by decide) (by decide)
    (by simp [span_visitor]) (by decide) (by decide) (by simp)
  exact ⟨(h.1 rfl).1, (h.1 rfl).2.1 rfl⟩

theorem filter_not_required_idem (l : List (String × Json)) :
    (l.filter (fun kv => kv.1 ∉ BUNYAN_REQUIRED_FIELDS)).filter
      (fun kv => kv.1 ∉ BUNYAN_REQUIRED_FIELDS) =
    l.filter (fun kv => kv.1 ∉ BUNYAN_REQUIRED_FIELDS) := by
  rw [List.filter_filter]
  congr 1
  funext kv
  by_cases h : kv.1 ∈ BUNYAN_REQUIRED_FIELDS <;> simp [h]

theorem filter_event_of_filter_not_required (l : List (String × Json)) :
    (l.filter (fun kv => kv.1 ∉ BUNYAN_REQUIRED_FIELDS)).filter
      (fun kv => kv.1 ≠ "message" ∧ kv.1 ∉ BUNYAN_REQUIRED_FIELDS) =
    l.filter (fun kv => kv.1 ≠ "message" ∧ kv.1 ∉ BUNYAN_REQUIRED_FIELDS) := by
  rw [List.filter_filter]
  congr 1
  funext kv
  by_cases h1 : kv.1 = "message" <;>
    by_cases h2 : kv.1 ∈ BUNYAN_REQUIRED_FIELDS <;> simp [h1, h2]

theorem serialize_span_congr_defaults {c c' : Config} {now : Option String}
    {span : SpanRef} {ty : RecType} {attrs : Option (List (String × Json))}
    (hpid : c'.pid = c.pid) (hhost : c'.hostname = c.hostname)
    (hver : c'.bunyan_version = c.bunyan_version) (hname : c'.name = c.name)
    (hskip : c'.skip_fields = c.skip_fields)
    (hid : c'.serialize_span_id = c.serialize_span_id)
    (hty : c'.serialize_span_type = c.serialize_span_type)
    (hdef : c'.default_fields.filter (fun kv => kv.1 ∉ BUNYAN_REQUIRED_FIELDS) =
      c.default_fields.filter (fun kv => kv.1 ∉ BUNYAN_REQUIRED_FIELDS)) :
    serialize_span c' now span ty attrs = serialize_span c now span ty attrs := by
  simp only [serialize_span, serialize_bunyan_core_fields, serialize_field,
    hpid, hhost, hver, hname, hskip, hid, hty, hdef]

theorem on_event_record_congr_defaults {c c' : Config} {now : Option String}
    {cs : Option SpanRef} {lvl : Level} {tgt : String} {line : Option Nat}
    {file : Option String} {vals : List (String × Json)}
    (hpid : c'.pid = c.pid) (hhost : c'.hostname = c.hostname)
    (hver : c'.bunyan_version = c.bunyan_version) (hname : c'.name = c.name)
    (hskip : c'.skip_fields = c.skip_fields)
    (hsf : c'.serialize_span_fields = c.serialize_span_fields)
    (hid : c'.serialize_span_id = c.serialize_span_id)
    (hty : c'.serialize_span_type = c.serialize_span_type)
    (hdef : c'.default_fields.filter
        (fun kv => kv.1 ≠ "message" ∧ kv.1 ∉ BUNYAN_REQUIRED_FIELDS) =
      c.default_fields.filter
        (fun kv => kv.1 ≠ "message" ∧ kv.1 ∉ BUNYAN_REQUIRED_FIELDS)) :
    on_event_record c' now cs lvl tgt line file vals =
      on_event_record c now cs lvl tgt line file vals := by
  simp only [on_event_record, serialize_bunyan_core_fields, serialize_field,
    format_event_message, hpid, hhost, hver, hname, hskip, hsf, hid, hty, hdef]

/-- C8: for every emitted record, every skipped key is absent; every
non-reserved, non-skipped default-field key is present with its configured
value (for events, unless the key is literally `message`); and a
default-field entry whose key collides with a core field name is silently
dropped: the records are identical to those built with such entries
filtered out of the default-fields map, and record building never fails. -/
theorem C8_skip_and_default_fields (c : Config) (now : Option String)
    (span : SpanRef) (ty : RecType) (attrs : Option (List (String × Json)))
    (cs : Option SpanRef) (lvl : Level) (tgt : String) (line : Option Nat)
    (file : Option String) (vals : List (String × Json))
    (hres : ∀ k ∈ c.skip_fields, k ∉ BUNYAN_REQUIRED_FIELDS) :
    (∀ k ∈ c.skip_fields,
      k ∉ recordKeys (serialize_span c now span ty attrs) ∧
      k ∉ recordKeys (on_event_record c now cs lvl tgt line file vals)) ∧
    (∀ k v, (k, v) ∈ c.default_fields → k ∉ BUNYAN_REQUIRED_FIELDS →
      k ∉ c.skip_fields →
      (k, v) ∈ serialize_span c now span ty attrs ∧
      (k ≠ "message" →
        (k, v) ∈ on_event_record c now cs lvl tgt line file vals)) ∧
    (serialize_span c now span ty attrs =
      serialize_span
        { c with default_fields :=
            c.default_fields.filter (fun kv => kv.1 ∉ BUNYAN_REQUIRED_FIELDS) }
        now span ty attrs ∧
     on_event_record c now cs lvl tgt line file vals =
      on_event_record
        { c with default_fields :=
            c.default_fields.filter (fun kv => kv.1 ∉ BUNYAN_REQUIRED_FIELDS) }
        now cs lvl tgt line file vals) := by
  refine ⟨?_, ?_, ?_, ?_⟩
  · intro k hk
    constructor
    · intro h
      rcases mem_keys_serialize_span.mp h with h | h | h | h | h | h | h | h
      · exact hres k hk (coreKeys_subset_required h)
      · exact h.2 (h.1 ▸ hk)
      · exact h.2 (h.1 ▸ hk)
      · exact h.2 (h.1 ▸ hk)
      · exact h.2.2 (h.2.1 ▸ hk)
      · rcases h.2 with ⟨he, -, hn⟩ | ⟨he, hn⟩ <;> exact hn (he ▸ hk)
      · exact h.2.2 hk
      · obtain ⟨vs, -, -, -, hn⟩ := h
        exact hn hk
    · intro h
      rcases mem_keys_on_event_record.mp h with h | h | h | h | h | h | h | h
      · exact hres k hk (coreKeys_subset_required h)
      · exact h.2 (h.1 ▸ hk)
      · exact h.2 (h.1 ▸ hk)
      · exact h.2 (h.1 ▸ hk)
      · exact h.2.2.2 hk
      · obtain ⟨-, sp2, -, h2⟩ := h
        rcases h2 with ⟨he, -, hn⟩ | ⟨he, hn⟩ <;> exact hn (he ▸ hk)
      · exact h.2.2.2 hk
      · obtain ⟨-, sp2, vs, -, -, -, -, hn⟩ := h
        exact hn hk
  · intro k v hmem hr hs
    constructor
    · simp only [serialize_span, List.mem_append]
      exact Or.inl (Or.inr (pair_mem_default_block.mpr ⟨hmem, hr, hs⟩))
    · intro hmsg
      simp only [on_event_record, List.mem_append]
      exact Or.inl (Or.inl (Or.inl (Or.inr
        (pair_mem_event_block.mpr ⟨hmem, hmsg, hr, hs⟩))))
  · symm
    exact serialize_span_congr_defaults rfl rfl rfl rfl rfl rfl rfl
      (filter_not_required_idem c.default_fields)
  · symm
    exact on_event_record_congr_defaults rfl rfl rfl rfl rfl rfl rfl rfl
      (filter_event_of_filter_not_required c.default_fields)

/-- C8 witness: on a layer with skip set `{skipped}` and default field
`custom_field`, a concrete span record omits `skipped` and carries
`custom_field` with its configured value. -/
theorem C8_skip_and_default_fields_witness :
    "skipped" ∉ recordKeys (serialize_span
      ⟨1, "host", 0, "test", [("custom_field", Json.str "custom_value")],
        ["skipped"], true, false, false⟩ (some "t")
      ⟨⟨1, "shaving_yaks", .debug, "app", none, none, none⟩, []⟩
      .EnterSpan none) ∧
    ("custom_field", Json.str "custom_value") ∈ serialize_span
      ⟨1, "host", 0, "test", [("custom_field", Json.str "custom_value")],
        ["skipped"], true, false, false⟩ (some "t")
      ⟨⟨1, "shaving_yaks", .debug, "app", none, none, none⟩, []⟩
      .EnterSpan none := by
  have h := C8_skip_and_default_fields
    ⟨1, "host", 0, "test", [("custom_field", Json.str "custom_value")],
      ["skipped"], true, false, false⟩ (some "t")
    ⟨⟨1, "shaving_yaks", .debug, "app", none, none, none⟩, []⟩
    .EnterSpan none none .info "app" none none [] (by decide)
  exact ⟨(h.1 "skipped" (by decide)).1,
    (h.2.1 "custom_field" (Json.str "custom_value") (by simp) (by decide)
      (by decide)).1⟩

/-! ### Counting core keys -/

theorem count_core_key {t : String} {k : String}
    (hk : k ∈ BUNYAN_REQUIRED_FIELDS) : (coreKeys (some t)).count k = 1 := by
  rcases (show k = "v" ∨ k = "level" ∨ k = "name" ∨ k = "hostname" ∨
      k = "pid" ∨ k = "time" ∨ k = "msg" by
    simpa [BUNYAN_REQUIRED_FIELDS] using hk) with
      rfl | rfl | rfl | rfl | rfl | rfl | rfl <;>
    simp [coreKeys, List.count_cons]

theorem count_keys_serialize_field_res {c : Config} {key : String} {v : Json}
    {k : String} (hne : key ∉ BUNYAN_REQUIRED_FIELDS)
    (hk : k ∈ BUNYAN_REQUIRED_FIELDS) :
    (recordKeys (serialize_field c key v)).count k = 0 :=
  List.count_eq_zero.mpr
    (fun hm => hne ((mem_recordKeys_serialize_field.mp hm).1 ▸ hk))

theorem count_keys_span_type_block_res {c : Config} {ty : RecType} {k : String}
    (hk : k ∈ BUNYAN_REQUIRED_FIELDS) :
    (recordKeys (if c.serialize_span_type then
        serialize_field c "span_type" (.str ty.display)
      else [])).count k = 0 :=
  List.count_eq_zero.mpr
    (fun hm => absurd ((mem_keys_span_type_block.mp hm).2.1 ▸ hk) (by decide))

theorem count_keys_span_ids_block_res {c : Config} {span : SpanRef} {k : String}
    (hk : k ∈ BUNYAN_REQUIRED_FIELDS) :
    (recordKeys (if c.serialize_span_id then
        (match span.parent with
         | some parent_span =>
             serialize_field c "parent_span_id" (.str (format_span_id parent_span))
         | none => []) ++
        serialize_field c "span_id" (.str (format_span_id span))
      else [])).count k = 0 := by
  refine List.count_eq_zero.mpr (fun hm => ?_)
  rcases (mem_keys_span_ids_block.mp hm).2 with ⟨h1, -, -⟩ | ⟨h1, -⟩ <;>
    exact absurd (h1 ▸ hk) (by decide)

theorem count_keys_event_ids_block_res {c : Config} {cs : Option SpanRef}
    {k : String} (hk : k ∈ BUNYAN_REQUIRED_FIELDS) :
    (recordKeys (if c.serialize_span_id then
        match cs with
        | some span =>
            (match span.parent with
             | some parent_span =>
                 serialize_field c "parent_span_id"
                   (.str (format_span_id parent_span))
             | none => []) ++
            serialize_field c "span_id" (.str (format_span_id span))
        | none => []
      else [])).count k = 0 := by
  refine List.count_eq_zero.mpr (fun hm => ?_)
  obtain ⟨-, sp, -, h2⟩ := mem_keys_event_ids_block.mp hm
  rcases h2 with ⟨h1, -, -⟩ | ⟨h1, -⟩ <;> exact absurd (h1 ▸ hk) (by decide)

theorem count_keys_default_block_res {c : Config} {l : List (String × Json)}
    {k : String} (hk : k ∈ BUNYAN_REQUIRED_FIELDS) :
    (recordKeys ((l.filter
        (fun kv => kv.1 ∉ BUNYAN_REQUIRED_FIELDS)).flatMap
        fun kv => serialize_field c kv.1 kv.2)).count k = 0 :=
  List.count_eq_zero.mpr
    (fun hm => (mem_keys_default_block.mp hm).2.1 hk)

theorem count_keys_event_filter_block_res {c : Config}
    {l : List (String × Json)} {k : String}
    (hk : k ∈ BUNYAN_REQUIRED_FIELDS) :
    (recordKeys ((l.filter
        (fun kv => kv.1 ≠ "message" ∧ kv.1 ∉ BUNYAN_REQUIRED_FIELDS)).flatMap
        fun kv => serialize_field c kv.1 kv.2)).count k = 0 :=
  List.count_eq_zero.mpr
    (fun hm => (mem_keys_event_block.mp hm).2.2.1 hk)

theorem count_keys_visitor_block_res {c : Config}
    {vis : Option (List (String × Json))} {k : String}
    (hk : k ∈ BUNYAN_REQUIRED_FIELDS) :
    (recordKeys (match vis with
      | some vs =>
          (vs.filter (fun kv => kv.1 ∉ BUNYAN_REQUIRED_FIELDS)).flatMap
            (fun kv => serialize_field c kv.1 kv.2)
      | none => [])).count k = 0 := by
  refine List.count_eq_zero.mpr (fun hm => ?_)
  obtain ⟨vs, -, -, hr, -⟩ := mem_keys_visitor_block.mp hm
  exact hr hk

theorem count_keys_span_fields_block_res {c : Config} {cs : Option SpanRef}
    {k : String} (hk : k ∈ BUNYAN_REQUIRED_FIELDS) :
    (recordKeys (if c.serialize_span_fields then
        match cs with
        | some span =>
            match span.data.ext with
            | some vs =>
                (vs.filter (fun kv => kv.1 ∉ BUNYAN_REQUIRED_FIELDS)).flatMap
                  (fun kv => serialize_field c kv.1 kv.2)
            | none => []
        | none => []
      else [])).count k = 0 := by
  refine List.count_eq_zero.mpr (fun hm => ?_)
  obtain ⟨-, sp, vs, -, -, -, hr, -⟩ := mem_keys_span_fields_block.mp hm
  exact hr hk

/-- C6 amended: in every emitted record each of the 7 core keys appears
exactly once — no default, captured, or metadata field ever duplicates or
overrides a core key (assuming the clock collaborator produced a timestamp;
without one the `time` entry is simply absent). Non-core keys, however, can
collide (see the counterexample). -/
theorem C6_core_keys_unique (c : Config) (t : String) (span : SpanRef)
    (ty : RecType) (attrs : Option (List (String × Json)))
    (cs : Option SpanRef) (lvl : Level) (tgt : String) (line : Option Nat)
    (file : Option String) (vals : List (String × Json)) :
    ∀ k ∈ BUNYAN_REQUIRED_FIELDS,
      (recordKeys (serialize_span c (some t) span ty attrs)).count k = 1 ∧
      (recordKeys (on_event_record c (some t) cs lvl tgt line file
        vals)).count k = 1 := by
  intro k hk
  constructor
  · simp only [serialize_span, recordKeys_append, List.count_append,
      recordKeys_core]
    rw [count_keys_default_block_res hk, count_keys_visitor_block_res hk]
    simp [count_core_key hk,
      @count_keys_serialize_field_res c "target" _ k (by decide) hk,
      @count_keys_serialize_field_res c "line" _ k (by decide) hk,
      @count_keys_serialize_field_res c "file" _ k (by decide) hk,
      count_keys_span_type_block_res hk, count_keys_span_ids_block_res hk]
  · simp only [on_event_record, recordKeys_append, List.count_append,
      recordKeys_core]
    rw [count_keys_event_filter_block_res hk,
      count_keys_event_filter_block_res hk,
      count_keys_span_fields_block_res hk]
    simp [count_core_key hk,
      @count_keys_serialize_field_res c "target" _ k (by decide) hk,
      @count_keys_serialize_field_res c "line" _ k (by decide) hk,
      @count_keys_serialize_field_res c "file" _ k (by decide) hk,
      count_keys_event_ids_block_res hk]

/-- C6 counterexample: the claim "no two fields share a key" is false on the
code: an event carrying a captured field named `target` yields a record in
which the key `target` appears twice (once from the event metadata, once
from the captured fields), since captured fields are only filtered against
the 7 core keys. -/
theorem C6_counterexample :
    ¬ (recordKeys (on_event_record
      ⟨1, "host", 0, "test", [], [], true, false, false⟩ (some "t") none
      .info "app" none none [("target", Json.str "x")])).Nodup := by decide

/-- C6 witness: concrete instantiation of the amended claim. -/
theorem C6_core_keys_unique_witness :
    (recordKeys (serialize_span
      ⟨1, "host", 0, "test", [], [], true, false, false⟩ (some "t")
      ⟨⟨1, "shaving_yaks", .debug, "app", none, none, none⟩, []⟩
      .EnterSpan none)).count "msg" = 1 :=
  (C6_core_keys_unique ⟨1, "host", 0, "test", [], [], true, false, false⟩
    "t" ⟨⟨1, "shaving_yaks", .debug, "app", none, none, none⟩, []⟩
    .EnterSpan none none .info "app" none none [] "msg" (by decide)).1

theorem getField_serialize_span_span_type {c : Config} {now : Option String}
    {span : SpanRef} {ty : RecType} {attrs : Option (List (String × Json))}
    (hty : c.serialize_span_type = true)
    (hs : "span_type" ∉ c.skip_fields) :
    getField (serialize_span c now span ty attrs) "span_type" =
      some (.str ty.display) := by
  simp only [serialize_span, hty, if_true, List.append_assoc]
  rw [getField_append_right (by rw [recordKeys_core]; cases now <;>
    simp [coreKeys])]
  rw [getField_append_right (by simp [mem_recordKeys_serialize_field])]
  rw [getField_append_right (by simp [mem_recordKeys_serialize_field])]
  rw [getField_append_right (by simp [mem_recordKeys_serialize_field])]
  exact getField_append_left (getField_serialize_field_self hs)

/-- C9 counterexample: the claim that, with span-type serialization enabled,
every record — including events — carries a `span_type` field is false on
the code: `on_event` never serializes `span_type`, so a concrete event
emitted with the toggle enabled lacks the key. -/
theorem C9_counterexample :
    "span_type" ∉ recordKeys (on_event_record
      ⟨1, "host", 0, "test", [], [], false, false, true⟩ (some "t")
      (some ⟨⟨1, "parent_span", .info, "app", none, none, none⟩, []⟩)
      .info "app" none none []) := by decide

/-- C9 amended: with span-type serialization enabled, span-enter records
carry `span_type = "START"` and span-exit records carry
`span_type = "END"`, but event records never carry a `span_type` key (the
EVENT tag exists only in the bracketed message convention); with the toggle
disabled no record carries the key. -/
theorem C9_span_type (c : Config) (now : Option String) (span : SpanRef)
    (attrs : Option (List (String × Json))) (created_ms now_ms : Nat)
    (cs : Option SpanRef) (lvl : Level) (tgt : String) (line : Option Nat)
    (file : Option String) (vals : List (String × Json))
    (hs : "span_type" ∉ c.skip_fields)
    (hd : "span_type" ∉ recordKeys c.default_fields)
    (he : "span_type" ∉ recordKeys vals)
    (hx : ∀ sp vs, cs = some sp → sp.data.ext = some vs →
      "span_type" ∉ recordKeys vs)
    (hv : ∀ vs, span_visitor span attrs = some vs →
      "span_type" ∉ recordKeys vs) :
    (c.serialize_span_type = true →
      getField (serialize_span c now span .EnterSpan attrs) "span_type" =
        some (.str "START") ∧
      getField (on_close_record c now span created_ms now_ms) "span_type" =
        some (.str "END")) ∧
    "span_type" ∉ recordKeys (on_event_record c now cs lvl tgt line file
      vals) ∧
    (c.serialize_span_type = false →
      "span_type" ∉ recordKeys (serialize_span c now span .EnterSpan
        attrs)) := by
  refine ⟨?_, ?_, ?_⟩
  · intro hty
    exact ⟨getField_serialize_span_span_type hty hs,
      getField_serialize_span_span_type hty hs⟩
  · intro h
    rcases mem_keys_on_event_record.mp h with h | h | h | h | h | h | h | h
    · cases now <;> simp [coreKeys] at h
    · simp at h
    · simp at h
    · simp at h
    · exact hd h.1
    · obtain ⟨-, sp2, -, h2⟩ := h
      rcases h2 with ⟨h3, -⟩ | ⟨h3, -⟩ <;> simp at h3
    · exact he h.1
    · obtain ⟨-, sp2, vs, hsp2, hvs, hmem, -, -⟩ := h
      exact hx sp2 vs hsp2 hvs hmem
  · intro hty h
    rcases mem_keys_serialize_span.mp h with h | h | h | h | h | h | h | h
    · cases now <;> simp [coreKeys] at h
    · simp at h
    · simp at h
    · simp at h
    · rw [hty] at h
      simp at h
    · rcases h.2 with ⟨h3, -⟩ | ⟨h3, -⟩ <;> simp at h3
    · exact hd h.1
    · obtain ⟨vs, hvs, hmem, -, -⟩ := h
      exact hv vs hvs hmem

/-- C9 witness: a concrete span-enter record with span-type serialization
enabled carries `span_type = "START"`. -/
theorem C9_span_type_witness :
    getField (serialize_span ⟨1, "host", 0, "test", [], [], false, false,
      true⟩ (some "t")
      ⟨⟨1, "shaving_yaks", .debug, "app", none, none, none⟩, []⟩
      .EnterSpan none) "span_type" = some (.str "START") :=
  ((C9_span_type ⟨1, "host", 0, "test", [], [], false, false, true⟩
    (some "t") ⟨⟨1, "shaving_yaks", .debug, "app", none, none, none⟩, []⟩
    none 0 0 none .info "app" none none []
    (by decide) (by decide) (by decide)
    (by intro sp vs h; cases h) (by simp [span_visitor])).1 rfl).1

/-- C1: every span-exit record built by `on_close` carries
`elapsed_milliseconds` equal to the integer milliseconds between the
span-enter timestamp recorded by the (spec-modelled) SpanTimer and the
moment of closure; it is emitted after all other fields (it is the record's
last entry); span-enter and event records never contain the field.
Hypotheses: `elapsed_milliseconds` is not skipped and is not among the
caller's default or captured field names. -/
theorem C1_elapsed_milliseconds (c : Config) (now : Option String)
    (span : SpanRef) (created_ms now_ms : Nat)
    (attrs : Option (List (String × Json))) (cs : Option SpanRef)
    (lvl : Level) (tgt : String) (line : Option Nat) (file : Option String)
    (vals : List (String × Json))
    (hs : "elapsed_milliseconds" ∉ c.skip_fields)
    (hd : "elapsed_milliseconds" ∉ recordKeys c.default_fields)
    (hold : "elapsed_milliseconds" ∉ recordKeys (span.data.ext.getD []))
    (hv : ∀ vs, span_visitor span attrs = some vs →
      "elapsed_milliseconds" ∉ recordKeys vs)
    (he : "elapsed_milliseconds" ∉ recordKeys vals)
    (hx : ∀ sp vs, cs = some sp → sp.data.ext = some vs →
      "elapsed_milliseconds" ∉ recordKeys vs) :
    getField (on_close_record c now span created_ms now_ms)
      "elapsed_milliseconds" = some (.num (now_ms - created_ms)) ∧
    (on_close_record c now span created_ms now_ms).getLast? =
      some ("elapsed_milliseconds", .num (now_ms - created_ms)) ∧
    "elapsed_milliseconds" ∉
      recordKeys (serialize_span c now span .EnterSpan attrs) ∧
    "elapsed_milliseconds" ∉
      recordKeys (on_event_record c now cs lvl tgt line file vals) := by
  refine ⟨?_, ?_, ?_, ?_⟩
  · simp only [on_close_record, serialize_span, close_span, span_visitor,
      List.append_assoc]
    rw [getField_append_right (by rw [recordKeys_core]; cases now <;>
      simp [coreKeys])]
    rw [getField_append_right (by simp [mem_recordKeys_serialize_field])]
    rw [getField_append_right (by simp [mem_recordKeys_serialize_field])]
    rw [getField_append_right (by simp [mem_recordKeys_serialize_field])]
    rw [getField_append_right (by simp [mem_keys_span_type_block])]
    rw [getField_append_right (by simp [mem_keys_span_ids_block])]
    rw [getField_append_right (fun h => hd (mem_keys_default_block.mp h).1)]
    rw [List.filter_append, List.flatMap_append]
    rw [getField_append_right (fun h => hold (mem_keys_default_block.mp h).1)]
    simp [serialize_field, hs, getField, BUNYAN_REQUIRED_FIELDS]
  · simp only [on_close_record, serialize_span, close_span, span_visitor,
      List.append_assoc]
    rw [List.filter_append, List.flatMap_append]
    have hone : (List.filter
        (fun kv => kv.1 ∉ BUNYAN_REQUIRED_FIELDS)
        [("elapsed_milliseconds", Json.num (now_ms - created_ms))]).flatMap
        (fun kv => serialize_field c kv.1 kv.2) =
        [("elapsed_milliseconds", Json.num (now_ms - created_ms))] := by
      simp [serialize_field, hs, BUNYAN_REQUIRED_FIELDS]
    rw [hone]
    simp [List.getLast?_append]
  · intro h
    rcases mem_keys_serialize_span.mp h with h | h | h | h | h | h | h | h
    · cases now <;> simp [coreKeys] at h
    · simp at h
    · simp at h
    · simp at h
    · simp at h
    · rcases h.2 with ⟨h3, -⟩ | ⟨h3, -⟩ <;> simp at h3
    · exact hd h.1
    · obtain ⟨vs, hvs, hmem, -, -⟩ := h
      exact hv vs hvs hmem
  · intro h
    rcases mem_keys_on_event_record.mp h with h | h | h | h | h | h | h | h
    · cases now <;> simp [coreKeys] at h
    · simp at h
    · simp at h
    · simp at h
    · exact hd h.1
    · obtain ⟨-, sp2, -, h2⟩ := h
      rcases h2 with ⟨h3, -⟩ | ⟨h3, -⟩ <;> simp at h3
    · exact he h.1
    · obtain ⟨-, sp2, vs, hsp2, hvs, hmem, -, -⟩ := h
      exact hx sp2 vs hsp2 hvs hmem

/-- C1 witness: concrete span closed at 250ms after creation at 100ms emits
`elapsed_milliseconds` of 150 as the record's last field. -/
theorem C1_elapsed_milliseconds_witness :
    getField (on_close_record ⟨1, "host", 0, "test", [], [], true, false,
      false⟩ (some "t")
      ⟨⟨1, "shaving_yaks", .debug, "app", none, none, none⟩, []⟩ 100 250)
      "elapsed_milliseconds" = some (.num (250 - 100)) :=
  (C1_elapsed_milliseconds ⟨1, "host", 0, "test", [], [], true, false, false⟩
    (some "t") ⟨⟨1, "shaving_yaks", .debug, "app", none, none, none⟩, []⟩
    100 250 none none .info "app" none none []
    (by decide) (by decide) (by decide) (by simp [span_visitor]) (by decide)
    (by intro sp vs h; cases h)).1
